import Mathlib

/-!
Verification development for the spreadsheet semantic-search engine.

The JavaScript sources are shallowly embedded as Lean definitions:
JS strings become `String`, JS arrays become `List`, nullable fields
become `Option`, JS `Map` iteration order becomes list order, exact
rational arithmetic models the numeric scores, and `Real` models the
floating-point cosine-similarity pipeline (its square root is genuinely
irrational).  Fallible code returns `Except`.
-/

/-! ## JavaScript string / truthiness primitives -/

/-- JS truthiness of a nullable string: `null`/`undefined` and the empty
string are falsy, every other string is truthy. -/
def jsTruthy : Option String → Bool
  | none => false
  | some s => !s.isEmpty

/-- Extract the string of a nullable string, defaulting to `""`. -/
def jsStr : Option String → String
  | none => ""
  | some s => s

/-- JS `a || b || ... || ''` over nullable strings: first truthy value,
else the empty string. -/
def firstTruthy : List (Option String) → String
  | [] => ""
  | x :: xs => if jsTruthy x then jsStr x else firstTruthy xs

/-- Is `pat` a (contiguous) prefix of `hay`?  Helper for `strIncludes`. -/
def isSubAt : List Char → List Char → Bool
  | [], _ => true
  | _ :: _, [] => false
  | p :: ps, h :: hs => p == h && isSubAt ps hs

/-- Does `pat` occur contiguously inside `hay`?  Helper for `strIncludes`. -/
def hasSub (pat : List Char) : List Char → Bool
  | [] => pat.isEmpty
  | h :: hs => isSubAt pat (h :: hs) || hasSub pat hs

/-- JS `hay.includes(pat)`: contiguous-substring test. -/
def strIncludes (hay pat : String) : Bool :=
  hasSub pat.data hay.data

/-- JS `s.toLowerCase()` (ASCII case folding), defined directly on the
character list so that it evaluates by kernel reduction. -/
def strToLower (s : String) : String := ⟨s.data.map Char.toLower⟩

/-- JS `[...new Set(l)]`: deduplicate keeping first occurrences in order. -/
def jsDedup (l : List String) : List String :=
  l.foldl (fun acc x => if x ∈ acc then acc else acc ++ [x]) []

/-- JS `s.split(/\s+/)` on the character list: split at maximal runs of
whitespace; a leading or trailing run produces an empty piece, matching
the JS regex-split semantics. -/
def splitWsAux : List Char → List Char → List String
  | [], acc => [⟨acc.reverse⟩]
  | c :: rest, acc =>
    if c.isWhitespace then
      (⟨acc.reverse⟩ : String) :: splitWsAux (rest.dropWhile Char.isWhitespace) []
    else
      splitWsAux rest (c :: acc)
termination_by cs _ => cs.length
decreasing_by
  · simp only [List.length_cons]
    exact Nat.lt_succ_of_le (List.Sublist.length_le (List.dropWhile_sublist _))
  · simp

/-- JS `s.split(/\s+/)`. -/
def splitWs (s : String) : List String :=
  splitWsAux s.data []

/-! ## Data model

The shapes of cell documents and parsed formulas, as constructed by the
ingestion pipeline (`excel-parser` / `formula-parser`) and consumed by
`heuristics.js` and `search-service.js`.  Only the fields those modules
read are modelled; nullable JS fields are `Option`s. -/

/-- One entry of `cell.headers.context`: a nearby non-empty cell. -/
structure ContextEntry where
  value : String
  crow : Nat := 0
  ccol : Nat := 0
  distance : Nat := 0

/-- Successful output of the formula analyzer (§4.1 shape):
`{functions, references, operators, complexity, type}`. -/
structure ParsedFormula where
  functions : List String
  references : List String := []
  operators : List String := []
  complexity : Rat := 0
  ftype : String := ""

/-- An indexed document (cell or range), with the fields read by the
search service and the heuristics.  `cells` models the truthiness of the
JS `doc.cells` field, the duck-typed range discriminant. -/
structure Doc where
  id : String
  sheetName : String := ""
  row : Nat := 0
  column : Nat := 0
  startRow : Nat := 0
  endRow : Nat := 0
  rawValue : Option String := none
  formattedValue : Option String := none
  formula : Option String := none
  parsedFormula : Option ParsedFormula := none
  headersColumn : Option String := none
  headersRow : Option String := none
  headersContext : List ContextEntry := []
  labels : List String := []
  embedding : List Real := []
  labelConfidence : Rat := 0
  labelMethod : String := ""
  labelExplanation : String := ""
  cells : Bool := false

/-! ## `backend/utils/heuristics.js` -/

namespace Heuristics

/-- `matchesPattern(text, patterns)`: some pattern, lowercased, occurs in
`text`. -/
def matchesPattern (text : String) (patterns : List String) : Bool :=
  patterns.any (fun p => strIncludes text (strToLower p))

/-- `detectBusinessConcepts(cell)`: build the lowercase blob from
formatted/raw value plus the truthy entries of
`[headers.column, headers.row, ...headers.context.map(c => c.value)]`,
then append a concept tag per matching pattern group, deduplicated. -/
def detectBusinessConcepts (cell : Doc) : List String :=
  let text := strToLower (firstTruthy [cell.formattedValue, cell.rawValue])
  let headerItems : List (Option String) :=
    [cell.headersColumn, cell.headersRow] ++ cell.headersContext.map (fun c => some c.value)
  let headerText :=
    strToLower (String.intercalate " " ((headerItems.filterMap id).filter (fun s => !s.isEmpty)))
  let allText := text ++ " " ++ headerText
  let fLower := strToLower (jsStr cell.formula)
  let concepts :=
    (if matchesPattern allText ["revenue", "sales", "income", "earnings"] then ["revenue"] else []) ++
    (if matchesPattern allText ["cost", "expense", "cogs", "cost of goods", "operating expense"] then ["cost"] else []) ++
    (if matchesPattern allText ["profit", "margin", "gross profit", "net profit", "ebitda"] then ["profitability"] else []) ++
    (if matchesPattern allText ["%", "percent", "percentage", "rate", "ratio"] then ["percentage"] else []) ++
    (if matchesPattern allText ["growth", "increase", "decrease", "change", "cagr", "yoy"] then ["growth"] else []) ++
    (if matchesPattern allText ["budget", "actual", "variance", "forecast", "projection"] then ["budget"] else []) ++
    (if matchesPattern allText ["q1", "q2", "q3", "q4", "quarter", "monthly", "yearly", "annual"] then ["time_series"] else []) ++
    (if matchesPattern allText ["roi", "roa", "roe", "debt", "equity", "ratio"] then ["financial_ratio"] else []) ++
    (if jsTruthy cell.formula && matchesPattern fLower ["vlookup", "hlookup", "xlookup", "index", "match"] then ["lookup"] else []) ++
    (if jsTruthy cell.formula && matchesPattern fLower ["sum", "average", "count", "max", "min"] then ["aggregation"] else []) ++
    (if jsTruthy cell.formula && matchesPattern fLower ["if", "ifs", "switch", "choose"] then ["conditional"] else [])
  jsDedup concepts

/-- `calculateConceptMatch(cellConcepts, queryConcepts)`: 0 when either
list is empty, else the number of cell concepts contained in the query
concepts, divided by the larger of the two lengths. -/
def calculateConceptMatch (cellConcepts queryConcepts : List String) : Rat :=
  if cellConcepts.isEmpty || queryConcepts.isEmpty then 0
  else
    ((cellConcepts.filter (fun c => c ∈ queryConcepts)).length : Rat) /
      ((max cellConcepts.length queryConcepts.length : Nat) : Rat)

/-- The functions whose presence boosts the complexity score. -/
def complexFunctions : List String :=
  ["VLOOKUP", "INDEX", "MATCH", "XLOOKUP", "IFS", "SWITCH"]

/-- `detectFormulaComplexity(parsedFormula)`: 0 with no parsed formula;
otherwise `min(complexity / 20, 1)`, plus a `+0.3` boost (re-capped at 1)
when a complex function occurs. -/
def detectFormulaComplexity : Option ParsedFormula → Rat
  | none => 0
  | some pf =>
    let normalizedComplexity := min (pf.complexity / 20) 1
    if pf.functions.any (fun fn => complexFunctions.contains fn) then
      min (normalizedComplexity + 3 / 10) 1
    else normalizedComplexity

/-- `calculateSheetImportance(sheetName)`: keyword tiers 1.0 / 0.7 / 0.3,
default 0.5. -/
def calculateSheetImportance (sheetName : String) : Rat :=
  let name := strToLower sheetName
  if matchesPattern name ["p&l", "profit", "income", "revenue", "financial", "budget", "forecast"] then 1
  else if matchesPattern name ["dashboard", "summary", "overview", "analysis", "metrics"] then 7 / 10
  else if matchesPattern name ["raw", "data", "input", "temp", "backup"] then 3 / 10
  else 1 / 2

/-- `heuristics.js` `generateEmbeddingText(cell)`: the canonical
embedding text — Sheet, Column, Row, Formula (with Type when classified)
or Value, and the first 3 context values, joined with " - ". -/
def generateEmbeddingText (cell : Doc) : String :=
  let parts : List String :=
    ["Sheet: " ++ cell.sheetName] ++
    (if jsTruthy cell.headersColumn then ["Column: " ++ jsStr cell.headersColumn] else []) ++
    (if jsTruthy cell.headersRow then ["Row: " ++ jsStr cell.headersRow] else []) ++
    (if jsTruthy cell.formula then
      ["Formula: " ++ jsStr cell.formula] ++
      (match cell.parsedFormula with
       | some pf => if !pf.ftype.isEmpty then ["Type: " ++ pf.ftype] else []
       | none => [])
     else if jsTruthy cell.formattedValue then ["Value: " ++ jsStr cell.formattedValue] else []) ++
    (if cell.headersContext.length > 0 then
      ["Context: " ++ String.intercalate ", " ((cell.headersContext.take 3).map (fun c => c.value))]
     else [])
  String.intercalate " - " parts

end Heuristics

/-! ## `backend/services/embedding-service.js` -/

namespace EmbeddingService

/-- The loop body's dot-product accumulator: sum of componentwise
products over the common indices. -/
def dotProd (a b : List Real) : Real :=
  ((a.zip b).map (fun p => p.1 * p.2)).sum

/-- `calculateCosineSimilarity(a, b)`: throws on a length mismatch,
returns 0 when either norm is zero, else the normalized dot product. -/
noncomputable def calculateCosineSimilarity (a b : List Real) : Except String Real :=
  if a.length ≠ b.length then .error "Vectors must have the same length"
  else if Real.sqrt (dotProd a a) = 0 ∨ Real.sqrt (dotProd b b) = 0 then .ok 0
  else .ok (dotProd a b / (Real.sqrt (dotProd a a) * Real.sqrt (dotProd b b)))

end EmbeddingService

/-! ## `backend/services/label-service.js` (pure parts)

`LabelService.generateLabels` consults the heuristics first; the LLM
backend is an external collaborator whose (possibly unavailable) answer
is passed in as an `Option`, matching the try/catch-with-fallback in the
source: an LLM failure is swallowed and the basic labels are used. -/

namespace LabelService

/-- Shape of a labeling result: `{labels, confidence, method, explanation}`. -/
structure LabelResult where
  labels : List String
  confidence : Rat
  method : String
  explanation : String

/-- `generateBasicLabels(cell)`: the built-in 6-pattern fallback. -/
def generateBasicLabels (cell : Doc) : List String :=
  let text := strToLower (firstTruthy [cell.formattedValue, cell.rawValue])
  let headerItems : List (Option String) :=
    [cell.headersColumn, cell.headersRow] ++ cell.headersContext.map (fun c => some c.value)
  let headerText :=
    strToLower (String.intercalate " " ((headerItems.filterMap id).filter (fun s => !s.isEmpty)))
  let allText := text ++ " " ++ headerText
  let labels :=
    (if strIncludes allText "revenue" || strIncludes allText "sales" then ["revenue"] else []) ++
    (if strIncludes allText "cost" || strIncludes allText "expense" then ["cost"] else []) ++
    (if strIncludes allText "profit" || strIncludes allText "margin" then ["profitability"] else []) ++
    (if strIncludes allText "%" || strIncludes allText "percent" then ["percentage"] else []) ++
    (if jsTruthy cell.formula then ["formula"] else []) ++
    (if strIncludes allText "budget" || strIncludes allText "actual" then ["budget"] else [])
  if labels.isEmpty then ["data"] else labels

/-- `generateExplanation(cell, labels)`: human-readable reasons per label. -/
def generateExplanation (labels : List String) : String :=
  let explanations :=
    (if labels.contains "revenue" then ["contains revenue-related terms"] else []) ++
    (if labels.contains "cost" then ["contains cost-related terms"] else []) ++
    (if labels.contains "profitability" then ["contains profitability indicators"] else []) ++
    (if labels.contains "percentage" then ["contains percentage calculations"] else []) ++
    (if labels.contains "formula" then ["contains formula"] else []) ++
    (if labels.contains "budget" then ["contains budget-related terms"] else [])
  let joined := String.intercalate ", " explanations
  if joined.isEmpty then "general data" else joined

/-- `generateLabels(cell)`: heuristic labels at confidence 0.8 when
non-empty; otherwise the external LLM answer when it is available and
succeeds; otherwise the basic labels at confidence 0.5. -/
def generateLabels (cell : Doc) (llm : Option LabelResult) : LabelResult :=
  let heuristicLabels := Heuristics.detectBusinessConcepts cell
  if !heuristicLabels.isEmpty then
    ⟨heuristicLabels, 8 / 10, "heuristic", generateExplanation heuristicLabels⟩
  else
    match llm with
    | some r => ⟨r.labels, r.confidence, "llm", r.explanation⟩
    | none =>
      let basicLabels := generateBasicLabels cell
      ⟨basicLabels, 1 / 2, "basic", generateExplanation basicLabels⟩

/-- `generateSearchExplanation(doc, query)` as executed on an indexed
document: such a document has no `concept` or `location` field, so only
the formula branch can fire. -/
def generateSearchExplanation (doc : Doc) : String :=
  let explanations :=
    if jsTruthy doc.formula then
      let f := jsStr doc.formula
      if strIncludes f "SUM" then ["contains SUM formula"]
      else if strIncludes f "/" then ["contains division calculation"]
      else if strIncludes f "VLOOKUP" then ["contains lookup formula"]
      else []
    else []
  let joined := String.intercalate ", " explanations
  if joined.isEmpty then "semantic similarity match" else joined

end LabelService

/-! ## `backend/services/search-service.js` -/

namespace SearchService

/-- The fixed query-term → concept dictionary of `detectQueryConcepts`,
in JS object-literal insertion order. -/
def conceptMap : List (String × List String) :=
  [("profit", ["profitability"]), ("margin", ["profitability"]),
   ("revenue", ["revenue"]), ("sales", ["revenue"]),
   ("cost", ["cost"]), ("expense", ["cost"]),
   ("percentage", ["percentage"]), ("ratio", ["percentage"]),
   ("growth", ["growth"]),
   ("budget", ["budget"]), ("actual", ["budget"]), ("forecast", ["budget"]),
   ("lookup", ["lookup"]), ("vlookup", ["lookup"]),
   ("formula", ["formula"]), ("calculation", ["formula"])]

/-- `detectQueryConcepts(query)`: collect the concepts of every map term
occurring in the lowercased query, deduplicated. -/
def detectQueryConcepts (query : String) : List String :=
  let lowerQuery := strToLower query
  jsDedup (conceptMap.foldl (fun acc p => if strIncludes lowerQuery p.1 then acc ++ p.2 else acc) [])

/-- `calculateFinalScore` with the default weight configuration
0.7 / 0.15 / 0.1 / 0.05. -/
noncomputable def calculateFinalScore
    (similarity : Real) (conceptMatch formulaComplexity sheetImportance : Rat) : Real :=
  (7 / 10) * similarity + (15 / 100) * (conceptMatch : Real) +
    (1 / 10) * (formulaComplexity : Real) + (5 / 100) * (sheetImportance : Real)

/-- One entry of the `similarities` array built by `search`. -/
structure Scored where
  docId : String
  doc : Doc
  similarity : Real
  conceptMatch : Rat
  formulaComplexity : Rat
  sheetImportance : Rat
  finalScore : Real

/-- The per-document body of the `search` loop. -/
noncomputable def scoreDoc (queryEmbedding : List Real) (queryConcepts : List String)
    (doc : Doc) : Except String Scored :=
  match EmbeddingService.calculateCosineSimilarity queryEmbedding doc.embedding with
  | .error e => .error e
  | .ok similarity =>
    let conceptMatch := Heuristics.calculateConceptMatch doc.labels queryConcepts
    let formulaComplexity :=
      match doc.parsedFormula with
      | some pf => Heuristics.detectFormulaComplexity (some pf)
      | none => 0
    let sheetImportance := Heuristics.calculateSheetImportance doc.sheetName
    .ok ⟨doc.id, doc, similarity, conceptMatch, formulaComplexity, sheetImportance,
         calculateFinalScore similarity conceptMatch formulaComplexity sheetImportance⟩

/-- Effectful map in the `Except` monad, short-circuiting on the first
error, as the sequential-`await` loop does. -/
def exMapM (f : α → Except String β) : List α → Except String (List β)
  | [] => .ok []
  | x :: xs =>
    match f x with
    | .error e => .error e
    | .ok y =>
      match exMapM f xs with
      | .error e => .error e
      | .ok ys => .ok (y :: ys)

/-- `getPrimaryConcept(doc)`: first label, else column header, else
"Formula" when a formula exists, else "Data". -/
def getPrimaryConcept (doc : Doc) : String :=
  match doc.labels with
  | l :: _ => l
  | [] =>
    if jsTruthy doc.headersColumn then jsStr doc.headersColumn
    else if jsTruthy doc.formula then "Formula"
    else "Data"

/-- `generateReasons(doc, query, similarity, conceptMatch)`. -/
noncomputable def generateReasons (doc : Doc) (query : String)
    (similarity : Real) (conceptMatch : Rat) : List String :=
  (if similarity > 8 / 10 then ["high semantic similarity"]
   else if similarity > 6 / 10 then ["good semantic similarity"] else []) ++
  (if conceptMatch > 1 / 2 then ["concept match"] else []) ++
  (if jsTruthy doc.formula then
    (if strIncludes (jsStr doc.formula) "SUM" then ["contains SUM formula"]
     else if strIncludes (jsStr doc.formula) "/" then ["contains division calculation"]
     else [])
   else []) ++
  (if jsTruthy doc.headersColumn then
    (let header := strToLower (jsStr doc.headersColumn)
     let queryLower := strToLower query
     if strIncludes header queryLower || strIncludes queryLower header then
       ["header matches query"]
     else [])
   else [])

/-- The location string: `"start-end"` for ranges, `"row:column"` for
cells. -/
def locationRange (doc : Doc) : String :=
  if doc.cells then toString doc.startRow ++ "-" ++ toString doc.endRow
  else toString doc.row ++ ":" ++ toString doc.column

/-- A formatted semantic search result. -/
structure SearchResult where
  id : String
  concept : String
  locationSheet : String
  locationRange : String
  formula : Option String
  value : Option String
  explanation : String
  relevance : Real
  reasons : List String
  labels : List String
  rtype : String

/-- `formatSearchResult(result, query)`. -/
noncomputable def formatSearchResult (query : String) (r : Scored) : SearchResult :=
  { id := r.doc.id
    concept := getPrimaryConcept r.doc
    locationSheet := r.doc.sheetName
    locationRange := locationRange r.doc
    formula := if jsTruthy r.doc.formula then r.doc.formula else none
    value := if jsTruthy r.doc.formattedValue then r.doc.formattedValue else none
    explanation := LabelService.generateSearchExplanation r.doc
    relevance := r.finalScore
    reasons := generateReasons r.doc query r.similarity r.conceptMatch
    labels := r.doc.labels
    rtype := if r.doc.cells then "range" else "cell" }

/-- `search(query, {topK, includeRanges})`.  The index is the list of
documents in `Map` insertion order; the external embedding provider's
answer for the query is passed in as an `Except` and — matching the
source, where the provider is only consulted after the empty-index
check — is inspected only when the index is non-empty.  JS `sort` is
stable, so it is modelled by `insertionSort`, which is stable for the
comparator-induced preorder. -/
noncomputable def search (index : List Doc) (provider : Except String (List Real))
    (query : String) (topK : Nat) (includeRanges : Bool) :
    Except String (List SearchResult) :=
  if index.isEmpty then .ok []
  else
    match provider with
    | .error e => .error e
    | .ok queryEmbedding =>
      match exMapM (scoreDoc queryEmbedding (detectQueryConcepts query))
          (index.filter (fun d => includeRanges || !d.cells)) with
      | .error e => .error e
      | .ok scored =>
        .ok (((@List.insertionSort Scored (fun a b => b.finalScore ≤ a.finalScore)
          (fun _ _ => Real.decidableLE _ _) scored).take topK).map (formatSearchResult query))

/-- One entry of the `results` array built by `keywordSearch`. -/
structure KeywordScored where
  docId : String
  doc : Doc
  score : Rat
  kmatches : List String

/-- The per-document scoring body of the `keywordSearch` loop: weighted
case-insensitive substring matches over column header (+2), row header
(+1.5), formatted value (+1), formula (+1.5) and each label (+1.5),
with their human-readable match descriptions in loop order. -/
def keywordScoreDoc (queryTerms : List String) (doc : Doc) : Rat × List String :=
  let colMatches :=
    if jsTruthy doc.headersColumn then
      queryTerms.filter (fun t => strIncludes (strToLower (jsStr doc.headersColumn)) t)
    else []
  let rowMatches :=
    if jsTruthy doc.headersRow then
      queryTerms.filter (fun t => strIncludes (strToLower (jsStr doc.headersRow)) t)
    else []
  let valMatches :=
    if jsTruthy doc.formattedValue then
      queryTerms.filter (fun t => strIncludes (strToLower (jsStr doc.formattedValue)) t)
    else []
  let fMatches :=
    if jsTruthy doc.formula then
      queryTerms.filter (fun t => strIncludes (strToLower (jsStr doc.formula)) t)
    else []
  let labelMatches :=
    doc.labels.flatMap (fun lab => queryTerms.filter (fun t => strIncludes (strToLower lab) t))
  let score : Rat :=
    2 * colMatches.length + (3 / 2) * rowMatches.length + valMatches.length +
      (3 / 2) * fMatches.length + (3 / 2) * labelMatches.length
  let descs :=
    colMatches.map (fun t => "header contains \"" ++ t ++ "\"") ++
    rowMatches.map (fun t => "row header contains \"" ++ t ++ "\"") ++
    valMatches.map (fun t => "value contains \"" ++ t ++ "\"") ++
    fMatches.map (fun t => "formula contains \"" ++ t ++ "\"") ++
    labelMatches.map (fun t => "label matches \"" ++ t ++ "\"")
  (score, descs)

/-- A formatted keyword search result. -/
structure KeywordResult where
  id : String
  concept : String
  locationSheet : String
  locationRange : String
  formula : Option String
  value : Option String
  explanation : String
  relevance : Rat
  reasons : List String
  labels : List String
  rtype : String

/-- `formatKeywordResult(result, query)`: relevance is the raw score
divided by 10. -/
def formatKeywordResult (r : KeywordScored) : KeywordResult :=
  { id := r.doc.id
    concept := getPrimaryConcept r.doc
    locationSheet := r.doc.sheetName
    locationRange := locationRange r.doc
    formula := if jsTruthy r.doc.formula then r.doc.formula else none
    value := if jsTruthy r.doc.formattedValue then r.doc.formattedValue else none
    explanation := "Keyword matches: " ++ String.intercalate ", " r.kmatches
    relevance := r.score / 10
    reasons := r.kmatches
    labels := r.doc.labels
    rtype := if r.doc.cells then "range" else "cell" }

/-- `keywordSearch(query, {topK, includeRanges})`: empty index short
circuit, per-document scoring keeping only documents with positive
score, stable sort by descending score, truncation to `topK`,
formatting. -/
def keywordSearch (index : List Doc) (query : String) (topK : Nat)
    (includeRanges : Bool) : List KeywordResult :=
  if index.isEmpty then []
  else
    let queryTerms := splitWs (strToLower query)
    let results := (index.filter (fun d => includeRanges || !d.cells)).filterMap
      (fun doc =>
        let sm := keywordScoreDoc queryTerms doc
        if sm.1 > 0 then some ⟨doc.id, doc, sm.1, sm.2⟩ else none)
    let sorted := List.insertionSort (fun a b : KeywordScored => b.score ≤ a.score) results
    (sorted.take topK).map formatKeywordResult

/-- `SearchService.generateEmbeddingText(doc)` — the text actually sent
to the embedding provider during cell ingestion: Sheet, Column when
present, then Formula when present else Value when present, joined with
" - ". -/
def generateEmbeddingText (doc : Doc) : String :=
  let parts : List String :=
    ["Sheet: " ++ doc.sheetName] ++
    (if jsTruthy doc.headersColumn then ["Column: " ++ jsStr doc.headersColumn] else []) ++
    (if jsTruthy doc.formula then ["Formula: " ++ jsStr doc.formula]
     else if jsTruthy doc.formattedValue then ["Value: " ++ jsStr doc.formattedValue]
     else [])
  String.intercalate " - " parts

/-- JS `Map.prototype.set` keyed by `doc.id`: replace in place when the
key exists (keeping its original position), else append. -/
def mapSet (index : List Doc) (d : Doc) : List Doc :=
  if index.any (fun x => x.id == d.id) then
    index.map (fun x => if x.id == d.id then d else x)
  else index ++ [d]

/-- `addToIndex(documents)`: for each document in order, synthesize the
embedding text, call the external embedding provider, generate labels,
and upsert the enriched document.  The loop body has no error handling:
a provider failure stops the loop, leaving the documents already
processed in the index and the rest unindexed, and propagates the error
(returned here as `some e`). -/
def addToIndex (index : List Doc) (docs : List Doc)
    (embed : String → Except String (List Real))
    (llm : Doc → Option LabelService.LabelResult) : List Doc × Option String :=
  match docs with
  | [] => (index, none)
  | d :: rest =>
    match embed (generateEmbeddingText d) with
    | .error e => (index, some e)
    | .ok v =>
      let lr := LabelService.generateLabels d (llm d)
      addToIndex
        (mapSet index { d with embedding := v, labels := lr.labels,
                               labelConfidence := lr.confidence, labelMethod := lr.method,
                               labelExplanation := lr.explanation })
        rest embed llm

end SearchService

/-! ## Basic facts about the dot product -/

namespace EmbeddingService

theorem dotProd_nil_left (b : List Real) : dotProd [] b = 0 := by
  simp [dotProd]

theorem dotProd_nil_right (a : List Real) : dotProd a [] = 0 := by
  cases a <;> simp [dotProd]

theorem dotProd_cons (x y : Real) (xs ys : List Real) :
    dotProd (x :: xs) (y :: ys) = x * y + dotProd xs ys := by
  simp [dotProd]

theorem dotProd_comm (a b : List Real) : dotProd a b = dotProd b a := by
  induction a generalizing b with
  | nil => cases b <;> simp [dotProd]
  | cons x xs ih =>
    cases b with
    | nil => simp [dotProd]
    | cons y ys => rw [dotProd_cons, dotProd_cons, ih, mul_comm]

theorem dotProd_self_nonneg (a : List Real) : 0 ≤ dotProd a a := by
  induction a with
  | nil => simp [dotProd]
  | cons x xs ih =>
    rw [dotProd_cons]
    have := mul_self_nonneg x
    linarith

theorem dotProd_self_pos (a : List Real) (h : ∃ x ∈ a, x ≠ 0) : 0 < dotProd a a := by
  induction a with
  | nil => simp at h
  | cons x xs ih =>
    rw [dotProd_cons]
    rcases h with ⟨y, hy, hy0⟩
    rcases List.mem_cons.1 hy with rfl | hmem
    · have h1 : 0 < y * y := mul_self_pos.2 hy0
      have h2 := dotProd_self_nonneg xs
      linarith
    · have h1 := ih ⟨y, hmem, hy0⟩
      have h2 := mul_self_nonneg x
      linarith

theorem dotProd_self_zero (a : List Real) (h : ∀ x ∈ a, x = 0) : dotProd a a = 0 := by
  induction a with
  | nil => simp [dotProd]
  | cons x xs ih =>
    rw [dotProd_cons, h x (List.mem_cons_self x xs), ih fun y hy => h y (List.mem_cons_of_mem _ hy)]
    simp

end EmbeddingService

/-- Claim C2: `search` and `keywordSearch` on an empty index return the
empty result list for every query — and never an error: `search` answers
`.ok []` even when the embedding provider's answer is an error, because
the empty-index check precedes the provider call. -/
theorem empty_index_returns_empty :
    (∀ (provider : Except String (List Real)) (query : String) (topK : Nat)
        (includeRanges : Bool),
        SearchService.search [] provider query topK includeRanges = .ok []) ∧
    (∀ (query : String) (topK : Nat) (includeRanges : Bool),
        SearchService.keywordSearch [] query topK includeRanges = []) := by
  constructor
  · intro provider query topK includeRanges
    simp [SearchService.search]
  · intro query topK includeRanges
    simp [SearchService.keywordSearch]

/-- Claim C4: the concept-match score is the size of the intersection of
the label list with the query-concept list, divided by the larger of the
two list lengths (a quotient that is 0 whenever either list is empty,
matching the guard in the source), and the concrete scenario
labels = ["profitability"], queryConcepts = ["profitability"] scores 1. -/
theorem calculateConceptMatch_spec :
    (∀ labels queryConcepts : List String,
        Heuristics.calculateConceptMatch labels queryConcepts =
          ((labels ∩ queryConcepts).length : Rat) /
            ((max labels.length queryConcepts.length : Nat) : Rat)) ∧
    (∀ labels queryConcepts : List String,
        labels = [] ∨ queryConcepts = [] →
        Heuristics.calculateConceptMatch labels queryConcepts = 0) ∧
    Heuristics.calculateConceptMatch ["profitability"] ["profitability"] = 1 := by
  refine ⟨?_, ?_, by norm_num [Heuristics.calculateConceptMatch]⟩
  · intro labels queryConcepts
    rw [Heuristics.calculateConceptMatch]
    have hfil : (labels ∩ queryConcepts).length =
        (labels.filter (fun c => c ∈ queryConcepts)).length := by
      simp [List.inter_def, List.elem_eq_mem]
    split
    · next h =>
      rcases Bool.or_eq_true_iff.1 h with h1 | h1
      · rw [List.isEmpty_iff.1 h1]
        simp
      · rw [List.isEmpty_iff.1 h1]
        simp
    · rw [hfil]
  · intro labels queryConcepts h
    rw [Heuristics.calculateConceptMatch]
    rcases h with rfl | rfl
    · simp
    · simp

/-- Witness for C4 at concrete inputs. -/
theorem calculateConceptMatch_spec_witness :
    Heuristics.calculateConceptMatch ["revenue", "cost"] ["cost"] =
      (((["revenue", "cost"] : List String) ∩ ["cost"]).length : Rat) / ((max 2 1 : Nat) : Rat) ∧
    Heuristics.calculateConceptMatch [] ["cost"] = 0 := by
  constructor
  · simpa using calculateConceptMatch_spec.1 ["revenue", "cost"] ["cost"]
  · exact calculateConceptMatch_spec.2.1 [] ["cost"] (Or.inl rfl)

/-- Claim C9: for a successfully parsed formula, whose complexity (as
accumulated by the §4.1 non-negative increments) is non-negative, the
normalized formula-complexity score lies in [0, 1] — with or without the
+0.3 complex-function boost — and it is 0 when there is no parsed
formula. -/
theorem detectFormulaComplexity_bounds :
    (∀ pf : ParsedFormula, 0 ≤ pf.complexity →
        0 ≤ Heuristics.detectFormulaComplexity (some pf) ∧
        Heuristics.detectFormulaComplexity (some pf) ≤ 1) ∧
    Heuristics.detectFormulaComplexity none = 0 := by
  refine ⟨?_, rfl⟩
  intro pf hc
  rw [Heuristics.detectFormulaComplexity]
  have hn0 : (0 : Rat) ≤ min (pf.complexity / 20) 1 :=
    le_min (by positivity) (by norm_num)
  have hn1 : min (pf.complexity / 20) 1 ≤ 1 := min_le_right _ _
  split
  · exact ⟨le_min (by linarith) (by norm_num), min_le_right _ _⟩
  · exact ⟨hn0, hn1⟩

/-- Witness for C9: a concrete parsed formula with the boost. -/
theorem detectFormulaComplexity_bounds_witness :
    0 ≤ (⟨["VLOOKUP"], [], ["+"], 5, "lookup"⟩ : ParsedFormula).complexity ∧
    (0 ≤ Heuristics.detectFormulaComplexity (some ⟨["VLOOKUP"], [], ["+"], 5, "lookup"⟩) ∧
      Heuristics.detectFormulaComplexity (some ⟨["VLOOKUP"], [], ["+"], 5, "lookup"⟩) ≤ 1) :=
  ⟨by decide, detectFormulaComplexity_bounds.1 _ (by decide)⟩

/-- Claim C8: cosine similarity is symmetric on equal-length vectors, and
every vector with a nonzero component has self-similarity exactly 1. -/
theorem cosineSimilarity_symm_self :
    (∀ a b : List Real, a.length = b.length →
        EmbeddingService.calculateCosineSimilarity a b =
          EmbeddingService.calculateCosineSimilarity b a) ∧
    (∀ a : List Real, (∃ x ∈ a, x ≠ 0) →
        EmbeddingService.calculateCosineSimilarity a a = .ok 1) := by
  constructor
  · intro a b h
    rw [EmbeddingService.calculateCosineSimilarity, EmbeddingService.calculateCosineSimilarity,
      h, EmbeddingService.dotProd_comm a b]
    exact if_congr Iff.rfl rfl (if_congr or_comm rfl (by rw [mul_comm]))
  · intro a h
    have hpos := EmbeddingService.dotProd_self_pos a h
    have hsq : Real.sqrt (EmbeddingService.dotProd a a) ≠ 0 :=
      ne_of_gt (Real.sqrt_pos.2 hpos)
    rw [EmbeddingService.calculateCosineSimilarity]
    rw [if_neg (by simp), if_neg (by simp [hsq])]
    rw [Real.mul_self_sqrt (le_of_lt hpos), div_self (ne_of_gt hpos)]

/-- Witness for C8 at concrete vectors. -/
theorem cosineSimilarity_symm_self_witness :
    EmbeddingService.calculateCosineSimilarity [1, 2] [3, 4] =
      EmbeddingService.calculateCosineSimilarity [3, 4] [1, 2] ∧
    EmbeddingService.calculateCosineSimilarity [0, 3] [0, 3] = .ok 1 :=
  ⟨cosineSimilarity_symm_self.1 [1, 2] [3, 4] rfl,
   cosineSimilarity_symm_self.2 [0, 3] ⟨3, by norm_num⟩⟩

/-- Claim C10: on equal-length vectors, when either vector is entirely
zero the cosine similarity is 0 (the zero-norm guard fires before the
division), and the division expression is only produced when both norms
are nonzero. -/
theorem cosineSimilarity_zero_norm :
    (∀ a b : List Real, a.length = b.length →
        ((∀ x ∈ a, x = 0) ∨ (∀ x ∈ b, x = 0)) →
        EmbeddingService.calculateCosineSimilarity a b = .ok 0) ∧
    (∀ a b : List Real, a.length = b.length →
        Real.sqrt (EmbeddingService.dotProd a a) ≠ 0 →
        Real.sqrt (EmbeddingService.dotProd b b) ≠ 0 →
        EmbeddingService.calculateCosineSimilarity a b =
          .ok (EmbeddingService.dotProd a b /
            (Real.sqrt (EmbeddingService.dotProd a a) *
              Real.sqrt (EmbeddingService.dotProd b b)))) := by
  constructor
  · intro a b hlen h
    rw [EmbeddingService.calculateCosineSimilarity, if_neg (by simp [hlen]), if_pos]
    rcases h with h | h
    · exact Or.inl (by rw [EmbeddingService.dotProd_self_zero a h, Real.sqrt_zero])
    · exact Or.inr (by rw [EmbeddingService.dotProd_self_zero b h, Real.sqrt_zero])
  · intro a b hlen ha hb
    rw [EmbeddingService.calculateCosineSimilarity, if_neg (by simp [hlen]),
      if_neg (by simp [ha, hb])]

/-- Witness for C10 at concrete vectors: an all-zero left vector. -/
theorem cosineSimilarity_zero_norm_witness :
    EmbeddingService.calculateCosineSimilarity [0, 0] [1, 2] = .ok 0 :=
  cosineSimilarity_zero_norm.1 [0, 0] [1, 2] rfl (Or.inl (by norm_num))

/-- Claim C5 counterexample: for a cell with a row header and context,
the text `addToIndex` sends to the embedding provider
(`SearchService.generateEmbeddingText`) is not the canonical form (the
unused `heuristics.js` builder): the Row and Context parts are missing. -/
theorem embeddingText_sent_not_canonical :
    SearchService.generateEmbeddingText
        { id := "c0", sheetName := "Model", formattedValue := some "42",
          headersRow := some "Revenue", headersContext := [⟨"Q1", 1, 2, 1⟩] } =
      "Sheet: Model - Value: 42" ∧
    Heuristics.generateEmbeddingText
        { id := "c0", sheetName := "Model", formattedValue := some "42",
          headersRow := some "Revenue", headersContext := [⟨"Q1", 1, 2, 1⟩] } =
      "Sheet: Model - Row: Revenue - Value: 42 - Context: Q1" ∧
    SearchService.generateEmbeddingText
        { id := "c0", sheetName := "Model", formattedValue := some "42",
          headersRow := some "Revenue", headersContext := [⟨"Q1", 1, 2, 1⟩] } ≠
      Heuristics.generateEmbeddingText
        { id := "c0", sheetName := "Model", formattedValue := some "42",
          headersRow := some "Revenue", headersContext := [⟨"Q1", 1, 2, 1⟩] } := by
  refine ⟨rfl, rfl, ?_⟩
  decide

/-- Claim C5 (amended): the embedding text sent for a cell is the join
with " - " of only Sheet, Column (when present) and Formula-or-Value; it
agrees with the canonical builder exactly on cells with no row header,
no context, and no classified formula type. -/
theorem embeddingText_sent_form :
    ∀ doc : Doc,
      jsTruthy doc.headersRow = false →
      doc.headersContext = [] →
      (∀ pf, doc.parsedFormula = some pf → pf.ftype = "") →
      SearchService.generateEmbeddingText doc = Heuristics.generateEmbeddingText doc := by
  intro doc h1 h2 h3
  cases hpf : doc.parsedFormula with
  | none =>
    simp [SearchService.generateEmbeddingText, Heuristics.generateEmbeddingText, h1, h2, hpf]
  | some pf =>
    simp [SearchService.generateEmbeddingText, Heuristics.generateEmbeddingText, h1, h2, hpf,
      h3 pf hpf, show ("" : String).isEmpty = true from rfl]

/-- Witness for the amended C5 at a concrete cell. -/
theorem embeddingText_sent_form_witness :
    SearchService.generateEmbeddingText { id := "w5", sheetName := "S", formattedValue := some "7" } =
      Heuristics.generateEmbeddingText { id := "w5", sheetName := "S", formattedValue := some "7" } :=
  embeddingText_sent_form _ rfl rfl (fun pf h => by cases h)

/-- Claim C6 counterexample: two cells that agree on everything except a
fourth context entry get different concept lists — the detector's blob
uses every context value, not just the first three. -/
theorem detectBusinessConcepts_context_counterexample :
    Heuristics.detectBusinessConcepts
        { id := "c6", headersContext := [⟨"x", 0, 0, 0⟩, ⟨"y", 0, 0, 0⟩, ⟨"z", 0, 0, 0⟩,
                                         ⟨"revenue", 0, 0, 0⟩] } = ["revenue"] ∧
    Heuristics.detectBusinessConcepts
        { id := "c6", headersContext := [⟨"x", 0, 0, 0⟩, ⟨"y", 0, 0, 0⟩, ⟨"z", 0, 0, 0⟩] } = [] ∧
    Heuristics.detectBusinessConcepts
        { id := "c6", headersContext := [⟨"x", 0, 0, 0⟩, ⟨"y", 0, 0, 0⟩, ⟨"z", 0, 0, 0⟩,
                                         ⟨"revenue", 0, 0, 0⟩] } ≠
      Heuristics.detectBusinessConcepts
        { id := "c6", headersContext := [⟨"x", 0, 0, 0⟩, ⟨"y", 0, 0, 0⟩, ⟨"z", 0, 0, 0⟩] } := by
  refine ⟨by decide, by decide, by decide⟩

/-- Claim C6 (amended): the concept detector's text blob is built only
from the formatted/raw value, the column header, the row header and the
full list of context values (plus the separate formula-text checks):
two cells agreeing on those fields get the same concept list. -/
theorem detectBusinessConcepts_depends_only_on :
    ∀ c1 c2 : Doc,
      c1.formattedValue = c2.formattedValue →
      c1.rawValue = c2.rawValue →
      c1.headersColumn = c2.headersColumn →
      c1.headersRow = c2.headersRow →
      c1.headersContext.map (fun c => c.value) = c2.headersContext.map (fun c => c.value) →
      c1.formula = c2.formula →
      Heuristics.detectBusinessConcepts c1 = Heuristics.detectBusinessConcepts c2 := by
  intro c1 c2 h1 h2 h3 h4 h5 h6
  have h5s : c1.headersContext.map (fun c => some c.value) =
      c2.headersContext.map (fun c => some c.value) := by
    have e1 : c1.headersContext.map (fun c => some c.value) =
        (c1.headersContext.map (fun c => c.value)).map some := by rw [List.map_map]; rfl
    have e2 : c2.headersContext.map (fun c => some c.value) =
        (c2.headersContext.map (fun c => c.value)).map some := by rw [List.map_map]; rfl
    rw [e1, e2, h5]
  rw [Heuristics.detectBusinessConcepts, Heuristics.detectBusinessConcepts,
    h1, h2, h3, h4, h5s, h6]

/-- Witness for the amended C6: cells differing only in irrelevant
fields (sheet name, position, embedding) get identical concept lists. -/
theorem detectBusinessConcepts_depends_only_on_witness :
    Heuristics.detectBusinessConcepts
        { id := "a", sheetName := "S1", row := 1, formattedValue := some "profit" } =
      Heuristics.detectBusinessConcepts
        { id := "b", sheetName := "S2", row := 9, formattedValue := some "profit" } :=
  detectBusinessConcepts_depends_only_on _ _ rfl rfl rfl rfl rfl rfl

/-- Claim C7 counterexample: with a provider failing on the first
document of a two-document batch, `addToIndex` indexes nothing — the
second document is not indexed (the failure is not isolated to the
failing item; the loop has no per-item error handling). -/
theorem addToIndex_failure_not_isolated :
    (SearchService.addToIndex []
        [{ id := "d1", sheetName := "A" }, { id := "d2", sheetName := "B" }]
        (fun t => if t = "Sheet: A" then .error "ProviderError" else .ok [])
        (fun _ => none)).2 = some "ProviderError" ∧
    ((SearchService.addToIndex []
        [{ id := "d1", sheetName := "A" }, { id := "d2", sheetName := "B" }]
        (fun t => if t = "Sheet: A" then .error "ProviderError" else .ok [])
        (fun _ => none)).1.map (fun d => d.id)) = [] :=
  ⟨rfl, rfl⟩

/-- Claim C7 (amended): an embedding-provider failure during `addToIndex`
aborts the remainder of the batch: the error of the first failing item
propagates to the caller, the items before it stay indexed, and the
failing item and everything after it are not indexed (no failure list is
collected). -/
theorem addToIndex_aborts_on_provider_failure :
    ∀ (index : List Doc) (pre : List Doc) (d : Doc) (post : List Doc)
      (embed : String → Except String (List Real))
      (llm : Doc → Option LabelService.LabelResult) (e : String),
      (∀ x ∈ pre, ∃ v, embed (SearchService.generateEmbeddingText x) = .ok v) →
      embed (SearchService.generateEmbeddingText d) = .error e →
      (SearchService.addToIndex index (pre ++ d :: post) embed llm).2 = some e ∧
      (SearchService.addToIndex index (pre ++ d :: post) embed llm).1 =
        (SearchService.addToIndex index pre embed llm).1 := by
  intro index pre d post embed llm e hpre hd
  induction pre generalizing index with
  | nil =>
    simp only [List.nil_append]
    rw [SearchService.addToIndex, SearchService.addToIndex, hd]
    exact ⟨rfl, rfl⟩
  | cons x xs ih =>
    obtain ⟨v, hv⟩ := hpre x (List.mem_cons_self x xs)
    simp only [List.cons_append]
    rw [SearchService.addToIndex, hv]
    conv_rhs => rw [SearchService.addToIndex, hv]
    exact ih _ (fun y hy => hpre y (List.mem_cons_of_mem _ hy))

/-- Witness for the amended C7 at a concrete batch. -/
theorem addToIndex_aborts_on_provider_failure_witness :
    (SearchService.addToIndex []
        [{ id := "d0", sheetName := "Z" }, { id := "d1", sheetName := "A" },
         { id := "d2", sheetName := "B" }]
        (fun t => if t = "Sheet: A" then .error "boom" else .ok [])
        (fun _ => none)).2 = some "boom" ∧
    (SearchService.addToIndex []
        [{ id := "d0", sheetName := "Z" }, { id := "d1", sheetName := "A" },
         { id := "d2", sheetName := "B" }]
        (fun t => if t = "Sheet: A" then .error "boom" else .ok [])
        (fun _ => none)).1 =
      (SearchService.addToIndex [] [{ id := "d0", sheetName := "Z" }]
        (fun t => if t = "Sheet: A" then .error "boom" else .ok [])
        (fun _ => none)).1 :=
  addToIndex_aborts_on_provider_failure []
    [{ id := "d0", sheetName := "Z" }] { id := "d1", sheetName := "A" }
    [{ id := "d2", sheetName := "B" }]
    (fun t => if t = "Sheet: A" then .error "boom" else .ok [])
    (fun _ => none) "boom"
    (by intro x hx
        simp only [List.mem_singleton] at hx
        subst hx
        exact ⟨[], rfl⟩)
    rfl

/-- Claim C3: a document whose keyword score is 0 never appears in the
`keywordSearch` results (only positive-score documents are pushed, and
sorting and truncation only remove entries). -/
theorem keywordSearch_excludes_zero_score :
    ∀ (index : List Doc) (query : String) (topK : Nat) (includeRanges : Bool) (doc : Doc),
      (index.map (fun d => d.id)).Nodup →
      doc ∈ index →
      (SearchService.keywordScoreDoc (splitWs (strToLower query)) doc).1 = 0 →
      doc.id ∉ (SearchService.keywordSearch index query topK includeRanges).map
        (fun r => r.id) := by
  intro index query topK ir doc hnd hmem hscore hin
  rw [SearchService.keywordSearch] at hin
  by_cases hemp : index.isEmpty
  · rw [if_pos hemp] at hin
    simp at hin
  · rw [if_neg hemp] at hin
    rw [List.map_map] at hin
    obtain ⟨ks, hks, hid⟩ := List.mem_map.1 hin
    have hks2 := List.mem_of_mem_take hks
    rw [List.mem_insertionSort] at hks2
    obtain ⟨a, ha, hbody⟩ := List.mem_filterMap.1 hks2
    have hain : a ∈ index := List.mem_of_mem_filter ha
    by_cases hpos : (SearchService.keywordScoreDoc (splitWs (strToLower query)) a).1 > 0
    · rw [if_pos hpos] at hbody
      have hksa : ks = ⟨a.id, a, (SearchService.keywordScoreDoc (splitWs (strToLower query)) a).1,
          (SearchService.keywordScoreDoc (splitWs (strToLower query)) a).2⟩ :=
        (Option.some.inj hbody).symm
      have haid : a.id = doc.id := by
        simp only [Function.comp] at hid
        rw [hksa] at hid
        exact hid
      have : a = doc := List.inj_on_of_nodup_map hnd hain hmem haid
      rw [this] at hpos
      rw [hscore] at hpos
      exact lt_irrefl 0 hpos
    · rw [if_neg hpos] at hbody
      exact Option.noConfusion hbody

/-- Witness for C3: a document scoring 0 for the query "zebra" is absent
from the results. -/
theorem keywordSearch_excludes_zero_score_witness :
    ("a" : String) ∉ (SearchService.keywordSearch
        [{ id := "a" }] "zebra" 5 true).map
        (fun r => r.id) :=
  keywordSearch_excludes_zero_score
    [{ id := "a" }] "zebra" 5 true
    { id := "a" }
    (by decide) (by simp)
    (by simp [SearchService.keywordScoreDoc, jsTruthy])

/-! ## Helper lemmas for the semantic-ranking theorem (C1)

JS `Array.prototype.sort` is stable; a stable sort by the comparator
`(a, b) => b.finalScore - a.finalScore` is modelled by `insertionSort`
with the relation `key y ≤ key x`, which inserts earlier elements before
later ones of equal key.  The lemmas below establish sortedness together
with stability: the sorted list is pairwise ordered by
"strictly larger key, or equal key and original order preserved". -/

/-- Position of the first occurrence of a string (list length if absent). -/
def idxOfStr (s : String) : List String → Nat
  | [] => 0
  | x :: xs => if x = s then 0 else idxOfStr s xs + 1

theorem idxOfStr_getElem :
    ∀ (l : List String), l.Nodup → ∀ (i : Nat) (hi : i < l.length), idxOfStr l[i] l = i := by
  intro l
  induction l with
  | nil => intro _ i hi; simp at hi
  | cons x xs ih =>
    intro hnd i hi
    cases i with
    | zero => simp [idxOfStr]
    | succ j =>
      have hj : j < xs.length := by simpa using hi
      have hmem : xs[j] ∈ xs := List.getElem_mem _
      have hx : x ∉ xs := (List.nodup_cons.1 hnd).1
      have hne : x ≠ xs[j] := fun h => hx (h ▸ hmem)
      have hget : (x :: xs)[j + 1] = xs[j] := rfl
      rw [hget, idxOfStr, if_neg hne, ih (List.nodup_cons.1 hnd).2 j hj]

/-- A list whose image under `f` has no duplicates is pairwise strictly
ordered by the position of the image in the image list. -/
theorem pairwise_idxOf_of_nodup {α : Type _} (f : α → String) (l : List α)
    (h : (l.map f).Nodup) :
    l.Pairwise (fun a b => idxOfStr (f a) (l.map f) < idxOfStr (f b) (l.map f)) := by
  have hids : (l.map f).Pairwise (fun x y => idxOfStr x (l.map f) < idxOfStr y (l.map f)) := by
    rw [List.pairwise_iff_get]
    intro i j hij
    have h1 : idxOfStr ((l.map f).get i) (l.map f) = i.val := by
      have := idxOfStr_getElem (l.map f) h i.val i.isLt
      simpa [List.get_eq_getElem] using this
    have h2 : idxOfStr ((l.map f).get j) (l.map f) = j.val := by
      have := idxOfStr_getElem (l.map f) h j.val j.isLt
      simpa [List.get_eq_getElem] using this
    rw [h1, h2]
    exact hij
  exact (@List.pairwise_map _ _ f
    (fun x y => idxOfStr x (l.map f) < idxOfStr y (l.map f)) l).mp hids

/-- A successful `exMapM` relates input and output pointwise. -/
theorem exMapM_ok_forall2 {α β : Type _} {f : α → Except String β} :
    ∀ {l : List α} {ys : List β}, SearchService.exMapM f l = .ok ys →
      List.Forall₂ (fun x y => f x = .ok y) l ys := by
  intro l
  induction l with
  | nil =>
    intro ys h
    rw [SearchService.exMapM] at h
    cases Except.ok.inj h
    exact List.Forall₂.nil
  | cons x xs ih =>
    intro ys h
    rw [SearchService.exMapM] at h
    cases hfx : f x with
    | error e => rw [hfx] at h; exact Except.noConfusion h
    | ok y =>
      rw [hfx] at h
      cases hrec : SearchService.exMapM f xs with
      | error e => rw [hrec] at h; exact Except.noConfusion h
      | ok ys0 =>
        rw [hrec] at h
        cases Except.ok.inj h
        exact List.Forall₂.cons hfx (ih hrec)

/-- Every right element of a `Forall₂` has a related left element. -/
theorem forall2_mem_right {α β : Type _} {R : α → β → Prop} :
    ∀ {l : List α} {ys : List β}, List.Forall₂ R l ys → ∀ {y}, y ∈ ys → ∃ x ∈ l, R x y := by
  intro l ys hf
  induction hf with
  | nil => intro y hy; simp at hy
  | cons h1 _h2 ih =>
    intro y hy
    rcases List.mem_cons.1 hy with rfl | hy2
    · exact ⟨_, List.mem_cons_self _ _, h1⟩
    · obtain ⟨x2, hx2, hR⟩ := ih hy2
      exact ⟨x2, List.mem_cons_of_mem _ hx2, hR⟩

/-- Transfer a `Pairwise` property along a pointwise relation. -/
theorem forall2_pairwise {α β : Type _} {R : α → β → Prop} {P : α → α → Prop}
    {Q : β → β → Prop} :
    ∀ {l : List α} {ys : List β}, List.Forall₂ R l ys → l.Pairwise P →
      (∀ x y x2 y2, R x y → R x2 y2 → P x x2 → Q y y2) → ys.Pairwise Q := by
  intro l ys hf
  induction hf with
  | nil => intro _ _; exact List.Pairwise.nil
  | cons h1 h2 ih =>
    intro hp himp
    rw [List.pairwise_cons] at hp
    refine List.Pairwise.cons ?_ (ih hp.2 himp)
    intro y2 hy2
    obtain ⟨x2, hx2, hR⟩ := forall2_mem_right h2 hy2
    exact himp _ _ _ _ h1 hR (hp.1 x2 hx2)

/-- A successful `scoreDoc` reproduces the document it scored. -/
theorem scoreDoc_ok_doc {qe : List Real} {qc : List String} {d : Doc}
    {s : SearchService.Scored} :
    SearchService.scoreDoc qe qc d = .ok s → s.doc = d := by
  rw [SearchService.scoreDoc]
  cases EmbeddingService.calculateCosineSimilarity qe d.embedding with
  | error e => intro h; exact Except.noConfusion h
  | ok sim =>
    intro h
    cases Except.ok.inj h
    rfl

/-- One step of the stable insertion sort: inserting an element that came
before everything in an already sorted-and-stable list keeps both the
descending-key order and the stability invariant. -/
theorem orderedInsert_stable {α : Type _} (key : α → Real)
    (dec : DecidableRel fun x y : α => key y ≤ key x) (P : α → α → Prop) (a : α) :
    ∀ l : List α,
      l.Pairwise (fun x y => key y < key x ∨ (key x = key y ∧ P x y)) →
      l.Pairwise (fun x y => key y ≤ key x) →
      (∀ b ∈ l, P a b) →
      (@List.orderedInsert α (fun x y => key y ≤ key x) dec a l).Pairwise
          (fun x y => key y < key x ∨ (key x = key y ∧ P x y)) ∧
      (@List.orderedInsert α (fun x y => key y ≤ key x) dec a l).Pairwise
          (fun x y => key y ≤ key x) := by
  intro l
  induction l with
  | nil =>
    intro _ _ _
    constructor <;> simp
  | cons b l ih =>
    intro hS hr ha
    rw [List.pairwise_cons] at hS hr
    rw [List.orderedInsert]
    by_cases hab : key b ≤ key a
    · rw [if_pos hab]
      constructor
      · refine List.Pairwise.cons ?_ (List.Pairwise.cons hS.1 hS.2)
        intro c hc
        rcases List.mem_cons.1 hc with rfl | hcl
        · rcases lt_or_eq_of_le hab with h | h
          · exact Or.inl h
          · exact Or.inr ⟨h.symm, ha c (List.mem_cons_self c l)⟩
        · rcases lt_or_eq_of_le (le_trans (hr.1 c hcl) hab) with h | h
          · exact Or.inl h
          · exact Or.inr ⟨h.symm, ha c (List.mem_cons_of_mem b hcl)⟩
      · refine List.Pairwise.cons ?_ (List.Pairwise.cons hr.1 hr.2)
        intro c hc
        rcases List.mem_cons.1 hc with rfl | hcl
        · exact hab
        · exact le_trans (hr.1 c hcl) hab
    · rw [if_neg hab]
      obtain ⟨ihS, ihr⟩ := ih hS.2 hr.2 (fun c hc => ha c (List.mem_cons_of_mem b hc))
      constructor
      · refine List.Pairwise.cons ?_ ihS
        intro c hc
        rcases (List.mem_orderedInsert _).1 hc with rfl | hcl
        · exact Or.inl (lt_of_not_le hab)
        · exact hS.1 c hcl
      · refine List.Pairwise.cons ?_ ihr
        intro c hc
        rcases (List.mem_orderedInsert _).1 hc with rfl | hcl
        · exact le_of_lt (lt_of_not_le hab)
        · exact hr.1 c hcl

/-- The insertion sort of a list is pairwise descending in the key and
stable: elements of equal key keep their original pairwise order `P`. -/
theorem insertionSort_stable {α : Type _} (key : α → Real)
    (dec : DecidableRel fun x y : α => key y ≤ key x) (P : α → α → Prop) :
    ∀ l : List α, l.Pairwise P →
      (@List.insertionSort α (fun x y => key y ≤ key x) dec l).Pairwise
          (fun x y => key y < key x ∨ (key x = key y ∧ P x y)) ∧
      (@List.insertionSort α (fun x y => key y ≤ key x) dec l).Pairwise
          (fun x y => key y ≤ key x) := by
  intro l
  induction l with
  | nil =>
    intro _
    constructor <;> simp
  | cons a l ih =>
    intro hP
    rw [List.pairwise_cons] at hP
    obtain ⟨sS, sr⟩ := ih hP.2
    rw [List.insertionSort]
    exact orderedInsert_stable key dec P a _ sS sr
      (fun b hb => hP.1 b ((List.mem_insertionSort _).1 hb))

/-- Claim C1: on a non-empty index, a successful semantic search returns
a list sorted in descending final score, in which documents of equal
final score keep their original index insertion order (stability), whose
length is at most min(topK, index size). -/
theorem search_sorted_stable_truncated :
    ∀ (index : List Doc) (provider : Except String (List Real)) (query : String)
      (topK : Nat) (includeRanges : Bool) (res : List SearchService.SearchResult),
      (index.map (fun d => d.id)).Nodup →
      index ≠ [] →
      SearchService.search index provider query topK includeRanges = .ok res →
      res.Pairwise (fun a b => b.relevance ≤ a.relevance) ∧
      res.Pairwise (fun a b => a.relevance = b.relevance →
        idxOfStr a.id (index.map (fun d => d.id)) <
          idxOfStr b.id (index.map (fun d => d.id))) ∧
      res.length ≤ min topK index.length := by
  intro index provider query topK ir res hnd hne hsearch
  rw [SearchService.search.eq_def] at hsearch
  rw [if_neg (by simpa [List.isEmpty_iff] using hne)] at hsearch
  split at hsearch
  · exact absurd hsearch (by simp)
  · rename_i qe
    split at hsearch
    · exact absurd hsearch (by simp)
    · rename_i scored heqm
      have hexm : SearchService.exMapM
          (SearchService.scoreDoc qe (SearchService.detectQueryConcepts query))
          (index.filter (fun d => ir || !d.cells)) = .ok scored := heqm
      have hres := Except.ok.inj hsearch
      subst hres
      have hPidx := pairwise_idxOf_of_nodup (fun d => d.id) index hnd
      have hPdocs : (index.filter (fun d => ir || !d.cells)).Pairwise
          (fun a b => idxOfStr a.id (index.map (fun d => d.id)) <
            idxOfStr b.id (index.map (fun d => d.id))) :=
        List.Pairwise.sublist (List.filter_sublist index) hPidx
      have hF2 := exMapM_ok_forall2 hexm
      have hQscored : scored.Pairwise
          (fun s t : SearchService.Scored =>
            idxOfStr s.doc.id (index.map (fun d => d.id)) <
              idxOfStr t.doc.id (index.map (fun d => d.id))) :=
        forall2_pairwise hF2 hPdocs
          (fun x y x2 y2 hxy hx2y2 hP => by
            rw [scoreDoc_ok_doc hxy, scoreDoc_ok_doc hx2y2]; exact hP)
      obtain ⟨hS, hr⟩ := insertionSort_stable (fun s : SearchService.Scored => s.finalScore)
        (fun _ _ => Real.decidableLE _ _)
        (fun s t : SearchService.Scored =>
          idxOfStr s.doc.id (index.map (fun d => d.id)) <
            idxOfStr t.doc.id (index.map (fun d => d.id)))
        scored hQscored
      have htakeS := List.Pairwise.sublist (List.take_sublist topK _) hS
      have htakeR := List.Pairwise.sublist (List.take_sublist topK _) hr
      refine ⟨?_, ?_, ?_⟩
      · exact List.pairwise_map.mpr (htakeR.imp (fun h => h))
      · refine List.pairwise_map.mpr (htakeS.imp ?_)
        intro s t h heq
        rcases h with h | h
        · exact absurd heq (ne_of_gt h)
        · exact h.2
      · rw [List.length_map, List.length_take, List.length_insertionSort,
          ← List.Forall₂.length_eq hF2]
        exact min_le_min (le_refl topK) (List.length_filter_le _ index)

/-- Concrete one-document index for the C1 witness. -/
def w0 : Doc := { id := "w0", sheetName := "Budget", formattedValue := some "5", embedding := [1] }

/-- The scored entry `search` builds for `w0` against query "q". -/
noncomputable def w0scored : SearchService.Scored := ⟨"w0", w0, 1, 0, 0, 1, 3 / 4⟩

/-- The formatted result `search` returns for `w0` against query "q". -/
noncomputable def w0result : SearchService.SearchResult :=
  { id := "w0", concept := "Data", locationSheet := "Budget", locationRange := "0:0",
    formula := none, value := some "5", explanation := "semantic similarity match",
    relevance := 3 / 4, reasons := ["high semantic similarity"], labels := [],
    rtype := "cell" }

theorem search_eval_w0 :
    SearchService.search [w0] (.ok [1]) "q" 1 true = .ok [w0result] := by
  have hcos : EmbeddingService.calculateCosineSimilarity [1] [1] = .ok 1 := by
    rw [EmbeddingService.calculateCosineSimilarity]
    have hd : EmbeddingService.dotProd [1] [1] = 1 := by
      simp [EmbeddingService.dotProd]
    rw [if_neg (by simp), hd, Real.sqrt_one]
    rw [if_neg (by norm_num)]
    norm_num
  have hqc : SearchService.detectQueryConcepts "q" = [] := by decide
  have hsi : Heuristics.calculateSheetImportance "Budget" = 1 := by
    rw [Heuristics.calculateSheetImportance]
    rw [if_pos (by decide)]
  have hcm : Heuristics.calculateConceptMatch [] [] = 0 := rfl
  have hfs : SearchService.calculateFinalScore 1 0 0 1 = 3 / 4 := by
    rw [SearchService.calculateFinalScore]
    push_cast
    norm_num
  have hsd : SearchService.scoreDoc [1] [] w0 = .ok w0scored := by
    simp only [SearchService.scoreDoc, show w0.embedding = [(1 : Real)] from rfl, hcos,
      show w0.parsedFormula = (none : Option ParsedFormula) from rfl,
      show w0.labels = ([] : List String) from rfl,
      show w0.sheetName = "Budget" from rfl, hsi, hcm, hfs,
      show w0.id = "w0" from rfl, w0scored]
  have hexm : SearchService.exMapM (SearchService.scoreDoc [1] [])
      ([w0].filter (fun d => true || !d.cells)) = .ok [w0scored] := by
    rw [show [w0].filter (fun d => true || !d.cells) = [w0] from by simp]
    rw [SearchService.exMapM, hsd, SearchService.exMapM]
  have hgp : SearchService.getPrimaryConcept w0 = "Data" := by decide
  have hloc : SearchService.locationRange w0 = "0:0" := by decide
  have hexp : LabelService.generateSearchExplanation w0 = "semantic similarity match" := by
    decide
  have hrsn : SearchService.generateReasons w0 "q" 1 0 = ["high semantic similarity"] := by
    rw [SearchService.generateReasons]
    rw [if_pos (by norm_num)]
    rw [show jsTruthy w0.formula = false from rfl]
    rw [show jsTruthy w0.headersColumn = false from rfl]
    rw [if_neg (by norm_num)]
    simp
  have hfmt : SearchService.formatSearchResult "q" w0scored = w0result := by
    simp only [SearchService.formatSearchResult,
      show w0scored.doc = w0 from rfl, show w0scored.similarity = 1 from rfl,
      show w0scored.conceptMatch = 0 from rfl, show w0scored.finalScore = 3 / 4 from rfl,
      hgp, hloc, hexp, hrsn,
      show w0.id = "w0" from rfl, show w0.sheetName = "Budget" from rfl,
      show jsTruthy w0.formula = false from rfl,
      show w0.formattedValue = some "5" from rfl,
      show jsTruthy (some "5") = true from rfl,
      show w0.labels = ([] : List String) from rfl,
      show w0.cells = false from rfl, w0result,
      Bool.false_eq_true, if_false, if_true]
  simp only [SearchService.search, List.isEmpty_cons, Bool.false_eq_true, if_false,
    hqc, hexm, List.insertionSort, List.orderedInsert, List.take_succ_cons, List.take_nil,
    List.map_cons, List.map_nil, hfmt]

/-- Witness for C1: the concrete one-document search, with the
hypotheses of the ranking theorem discharged at that input. -/
theorem search_sorted_stable_truncated_witness :
    ([w0result] : List SearchService.SearchResult).Pairwise
        (fun a b => b.relevance ≤ a.relevance) ∧
    ([w0result] : List SearchService.SearchResult).Pairwise
        (fun a b => a.relevance = b.relevance →
          idxOfStr a.id ([w0].map (fun d => d.id)) < idxOfStr b.id ([w0].map (fun d => d.id))) ∧
    ([w0result] : List SearchService.SearchResult).length ≤ min 1 ([w0] : List Doc).length :=
  search_sorted_stable_truncated [w0] (.ok [1]) "q" 1 true [w0result]
    (by decide) (by simp) search_eval_w0
